import Mathlib

/-!
# Verification of the Synkyria monitor core engine

Shallow embedding of `src/synkyria/monitor.py` (class
`SynkyrianTrainingCompanion`): the rolling-window history, the CRQ and SCP
indices, and the governance state machine of `step`, together with `reset`
and construction.  Real-valued quantities are modelled over `ℚ`; the two
bounded deques become lists (oldest first) truncated to the window size.
-/

namespace Synkyria

/-- The `status` field of a `CompanionState` (a fixed enumeration in the code). -/
inductive Status where
  | WARMUP
  | HEALTHY
  | RISK
  | HOLDING
  | COLLAPSE
  | CHRONIC_FAILURE
deriving DecidableEq, Repr

/-- The `action` field of a `CompanionState` (a fixed enumeration in the code). -/
inductive Action where
  | NONE
  | REDUCE_LR
  | STOP
deriving DecidableEq, Repr

/-- Snapshot returned at every monitoring step (`CompanionState` dataclass). -/
structure CompanionState where
  epoch : Int
  status : Status
  crq : ℚ
  scp : ℚ
  action : Action
deriving DecidableEq, Repr

/-- The constructor parameters of `SynkyrianTrainingCompanion.__init__`,
kept immutable for the monitor's lifetime.  `window_size` and
`chronic_risk_epochs` are Python ints, the rest are reals. -/
structure Config where
  window_size : Int
  crq_threshold : ℚ
  scp_threshold : ℚ
  hold_floor : ℚ
  scp_stop : ℚ
  chronic_risk_epochs : Int
  crq_scale : ℚ
  scp_sensitivity : ℚ
deriving DecidableEq, Repr

/-- The mutable state of a `SynkyrianTrainingCompanion` instance:
configuration, the two bounded histories (oldest first), and the
risk-streak counter. -/
structure Monitor where
  cfg : Config
  history_loss : List ℚ
  history_val : List ℚ
  risk_streak : Nat
deriving DecidableEq, Repr

/-- `deque(maxlen = maxlen).append x`: append on the right, evicting from
the left anything beyond the capacity. -/
def pushWindow (maxlen : Nat) (xs : List ℚ) (x : ℚ) : List ℚ :=
  let ys := xs ++ [x]
  ys.drop (ys.length - maxlen)

/-- The monitor state produced by `__init__` after validation has passed:
empty histories and zero risk streak. -/
def initMonitor (cfg : Config) : Monitor :=
  { cfg := cfg, history_loss := [], history_val := [], risk_streak := 0 }

/-- The one construction-time error of the engine: the `ValueError` with
message `window_size must be at least 2.` raised by `__init__`. -/
inductive MonitorError where
  | InvalidConfiguration
deriving DecidableEq, Repr

/-- `SynkyrianTrainingCompanion.__init__`: raises the invalid-configuration
`ValueError` when `window_size < 2`, otherwise yields the fresh monitor
state (empty histories, zero risk streak, configuration as supplied). -/
def mkCompanion (cfg : Config) : Except MonitorError Monitor :=
  if cfg.window_size < 2 then
    Except.error MonitorError.InvalidConfiguration
  else
    Except.ok (initMonitor cfg)

/-- `SynkyrianTrainingCompanion.reset`: clears both histories and the
risk streak, leaving the configuration untouched. -/
def reset (m : Monitor) : Monitor :=
  { m with history_loss := [], history_val := [], risk_streak := 0 }

/-- The consecutive differences `recent[i] - recent[i-1]` over a window
(the `loss_jumps` list comprehension in `step`). -/
def loss_jumps : List ℚ → List ℚ
  | a :: b :: rest => (b - a) :: loss_jumps (b :: rest)
  | _ => []

/-- Python's binary `min` on numbers. -/
def pymin (a b : ℚ) : ℚ :=
  if a ≤ b then a else b

/-- Python's binary `max` on numbers. -/
def pymax (a b : ℚ) : ℚ :=
  if b ≤ a then a else b

/-- `np.mean` on a list of rationals (exact: sum divided by length). -/
def listMean (l : List ℚ) : ℚ :=
  l.sum / (l.length : ℚ)

/-- Python's `max` over a nonempty list (left fold from the head);
defaults to `0` on the empty list, which the engine never reaches. -/
def listMax : List ℚ → ℚ
  | [] => 0
  | a :: rest => rest.foldl pymax a

/-- Stage 1 of `step` (Crisis Quotient): keep the positive loss jumps; if
none, CRQ is 0, otherwise the mean positive jump scaled by `crq_scale`
and clipped at 1. -/
def crqOf (cfg : Config) (recent_losses : List ℚ) : ℚ :=
  let positive_jumps := (loss_jumps recent_losses).filter (fun j => 0 < j)
  if positive_jumps.isEmpty then 0
  else pymin 1 (listMean positive_jumps * cfg.crq_scale)

/-- Stage 2 of `step` (Suspended Coherence): the drop of the last
validation value below the window maximum, mapped through
`max(0, 1 - drop * scp_sensitivity)`. -/
def scpOf (cfg : Config) (recent_val : List ℚ) : ℚ :=
  let val_drop := listMax recent_val - recent_val.getLastD 0
  pymax 0 (1 - val_drop * cfg.scp_sensitivity)

/-- `SynkyrianTrainingCompanion.step`: push the observation into both
histories; while the validation history is shorter than the window,
return the WARMUP snapshot; otherwise compute CRQ and SCP and run the
governance logic, updating the risk streak. -/
def step (m : Monitor) (epoch : Int) (train_loss val_acc : ℚ) :
    CompanionState × Monitor :=
  let history_loss := pushWindow m.cfg.window_size.toNat m.history_loss train_loss
  let history_val := pushWindow m.cfg.window_size.toNat m.history_val val_acc
  let m1 : Monitor := { m with history_loss := history_loss, history_val := history_val }
  if (history_val.length : Int) < m.cfg.window_size then
    ({ epoch := epoch, status := .WARMUP, crq := 0, scp := 1, action := .NONE }, m1)
  else
    let crq := crqOf m.cfg history_loss
    let scp := scpOf m.cfg history_val
    let field_is_held := m.cfg.hold_floor < scp
    if (m.cfg.crq_threshold < crq ∧ ¬ field_is_held) ∨ scp < m.cfg.scp_threshold then
      let risk_streak := m.risk_streak + 1
      let sa : Status × Action :=
        if risk_streak = 1 then (.RISK, .REDUCE_LR)
        else if 3 ≤ risk_streak then
          if scp < m.cfg.scp_stop then (.COLLAPSE, .STOP)
          else if m.cfg.chronic_risk_epochs ≤ (risk_streak : Int) then
            (.CHRONIC_FAILURE, .STOP)
          else (.HOLDING, .NONE)
        else (.RISK, .NONE)
      ({ epoch := epoch, status := sa.1, crq := crq, scp := scp, action := sa.2 },
       { m1 with risk_streak := risk_streak })
    else
      ({ epoch := epoch, status := .HEALTHY, crq := crq, scp := scp, action := .NONE },
       { m1 with risk_streak := 0 })

/-- Driving the monitor through a list of `(epoch, train_loss, val_acc)`
observations, collecting the snapshots and the final state. -/
def runSteps (m : Monitor) : List (Int × ℚ × ℚ) → List CompanionState × Monitor
  | [] => ([], m)
  | (e, l, v) :: rest =>
      let r := step m e l v
      let rr := runSteps r.2 rest
      (r.1 :: rr.1, rr.2)

/-- The default configuration of `SynkyrianTrainingCompanion.__init__`. -/
def defaultConfig : Config :=
  { window_size := 5
    crq_threshold := 8/10
    scp_threshold := 4/10
    hold_floor := 80/100
    scp_stop := 30/100
    chronic_risk_epochs := 6
    crq_scale := 10
    scp_sensitivity := 5 }

/-- The default configuration with the smallest legal window, used to
exercise the warm path on short concrete runs. -/
def wcfg : Config := { defaultConfig with window_size := 2 }

/-- A reachable warm-in-one-more-step state: the monitor `wcfg` yields
after one observation `(loss 1, val 1/2)`. -/
def wmon1 : Monitor :=
  { cfg := wcfg, history_loss := [1], history_val := [1/2], risk_streak := 0 }

/-- The risk trigger exactly as the specification words it:
`(crq > crq_threshold AND NOT (scp > hold_floor)) OR (scp < scp_threshold)`. -/
def riskySpec (cfg : Config) (crq scp : ℚ) : Prop :=
  (crq > cfg.crq_threshold ∧ ¬ (scp > cfg.hold_floor)) ∨ scp < cfg.scp_threshold

instance (cfg : Config) (crq scp : ℚ) : Decidable (riskySpec cfg crq scp) := by
  unfold riskySpec
  infer_instance

/-- The governance classification of a risky epoch exactly as the
specification words it, as a function of the incremented streak:
streak 1 is RISK/REDUCE_LR, streak 2 is RISK/NONE, streak at least 3 is
COLLAPSE/STOP when `scp < scp_stop`, otherwise CHRONIC_FAILURE/STOP when
the streak has reached `chronic_risk_epochs`, otherwise HOLDING/NONE. -/
def classifySpec (cfg : Config) (scp : ℚ) (streak : Nat) : Status × Action :=
  if streak = 1 then (.RISK, .REDUCE_LR)
  else if streak = 2 then (.RISK, .NONE)
  else if 3 ≤ streak ∧ scp < cfg.scp_stop then (.COLLAPSE, .STOP)
  else if 3 ≤ streak ∧ cfg.chronic_risk_epochs ≤ (streak : Int) then
    (.CHRONIC_FAILURE, .STOP)
  else (.HOLDING, .NONE)

instance : Inhabited CompanionState :=
  ⟨{ epoch := 0, status := .WARMUP, crq := 0, scp := 1, action := .NONE }⟩

/-! ## Basic lemmas about the window and a single step -/

lemma pushWindow_length (w : Nat) (xs : List ℚ) (x : ℚ) :
    (pushWindow w xs x).length = min (xs.length + 1) w := by
  simp [pushWindow]
  omega

lemma step_cfg (m : Monitor) (e : Int) (l v : ℚ) : (step m e l v).2.cfg = m.cfg := by
  simp only [step]
  split_ifs <;> rfl

lemma step_epoch (m : Monitor) (e : Int) (l v : ℚ) : (step m e l v).1.epoch = e := by
  simp only [step]
  split_ifs <;> rfl

/-- While the pushed validation history is still shorter than the window,
`step` returns the WARMUP snapshot and only updates the histories. -/
lemma step_warmup_eq (m : Monitor) (e : Int) (l v : ℚ)
    (h : (m.history_val.length : Int) + 1 < m.cfg.window_size) :
    step m e l v =
      ({ epoch := e, status := .WARMUP, crq := 0, scp := 1, action := .NONE },
       { m with history_loss := pushWindow m.cfg.window_size.toNat m.history_loss l,
                history_val := pushWindow m.cfg.window_size.toNat m.history_val v }) := by
  have hlen := pushWindow_length m.cfg.window_size.toNat m.history_val v
  have hc : ((pushWindow m.cfg.window_size.toNat m.history_val v).length : Int) <
      m.cfg.window_size := by omega
  simp only [step]
  rw [if_pos hc]

/-- Once the history is warm, the snapshot's `crq` field is the CRQ of the
pushed loss window. -/
lemma step_crq_warm (m : Monitor) (e : Int) (l v : ℚ)
    (hwarm : m.cfg.window_size ≤ (m.history_val.length : Int) + 1) :
    (step m e l v).1.crq =
      crqOf m.cfg (pushWindow m.cfg.window_size.toNat m.history_loss l) := by
  have hlen := pushWindow_length m.cfg.window_size.toNat m.history_val v
  have hc : ¬ ((pushWindow m.cfg.window_size.toNat m.history_val v).length : Int) <
      m.cfg.window_size := by omega
  simp only [step]
  rw [if_neg hc]
  split_ifs <;> rfl

/-- Once the history is warm, the snapshot's `scp` field is the SCP of the
pushed validation window. -/
lemma step_scp_warm (m : Monitor) (e : Int) (l v : ℚ)
    (hwarm : m.cfg.window_size ≤ (m.history_val.length : Int) + 1) :
    (step m e l v).1.scp =
      scpOf m.cfg (pushWindow m.cfg.window_size.toNat m.history_val v) := by
  have hlen := pushWindow_length m.cfg.window_size.toNat m.history_val v
  have hc : ¬ ((pushWindow m.cfg.window_size.toNat m.history_val v).length : Int) <
      m.cfg.window_size := by omega
  simp only [step]
  rw [if_neg hc]
  split_ifs <;> rfl

/-- A warm call never reports WARMUP. -/
lemma step_status_ne_warmup (m : Monitor) (e : Int) (l v : ℚ)
    (hwarm : m.cfg.window_size ≤ (m.history_val.length : Int) + 1) :
    (step m e l v).1.status ≠ Status.WARMUP := by
  have hlen := pushWindow_length m.cfg.window_size.toNat m.history_val v
  have hc : ¬ ((pushWindow m.cfg.window_size.toNat m.history_val v).length : Int) <
      m.cfg.window_size := by omega
  simp only [step]
  rw [if_neg hc]
  split_ifs <;> simp

/-! ## Lemmas about whole runs -/

lemma runSteps_fst_length (inputs : List (Int × ℚ × ℚ)) (m : Monitor) :
    (runSteps m inputs).1.length = inputs.length := by
  induction inputs generalizing m with
  | nil => rfl
  | cons t rest ih =>
      obtain ⟨e, l, v⟩ := t
      simp [runSteps, ih]

lemma runSteps_append (xs ys : List (Int × ℚ × ℚ)) (m : Monitor) :
    runSteps m (xs ++ ys) =
      ((runSteps m xs).1 ++ (runSteps (runSteps m xs).2 ys).1,
       (runSteps (runSteps m xs).2 ys).2) := by
  induction xs generalizing m with
  | nil => simp [runSteps]
  | cons t rest ih =>
      obtain ⟨e, l, v⟩ := t
      simp [runSteps, ih]

lemma runSteps_take (inputs : List (Int × ℚ × ℚ)) (m : Monitor) (k : Nat) :
    (runSteps m inputs).1.take k = (runSteps m (inputs.take k)).1 := by
  conv_lhs => rw [← List.take_append_drop k inputs]
  rw [runSteps_append]
  rcases le_or_lt k inputs.length with hk | hk
  · rw [List.take_append_of_le_length, List.take_of_length_le]
    · rw [runSteps_fst_length, List.length_take]
      omega
    · rw [runSteps_fst_length, List.length_take]
      omega
  · rw [List.drop_eq_nil_of_le (by omega), List.take_of_length_le]
    · simp [runSteps]
    · rw [List.length_append, runSteps_fst_length, List.length_take]
      simp only [runSteps, List.length_nil]
      omega

/-- A run that stays entirely inside the warmup phase: every snapshot is
the WARMUP snapshot echoing its epoch, the configuration and risk streak
are untouched, and the validation history grows by one per call. -/
lemma runSteps_warmup (inputs : List (Int × ℚ × ℚ)) : ∀ m : Monitor,
    (m.history_val.length : Int) + inputs.length < m.cfg.window_size →
    (runSteps m inputs).1 =
      inputs.map (fun t =>
        { epoch := t.1, status := Status.WARMUP, crq := 0, scp := 1, action := Action.NONE }) ∧
    (runSteps m inputs).2.cfg = m.cfg ∧
    (runSteps m inputs).2.risk_streak = m.risk_streak ∧
    (runSteps m inputs).2.history_val.length = m.history_val.length + inputs.length := by
  induction inputs with
  | nil => simp [runSteps]
  | cons t rest ih =>
      intro m h
      obtain ⟨e, l, v⟩ := t
      simp only [List.length_cons] at h
      have hw : (m.history_val.length : Int) + 1 < m.cfg.window_size := by omega
      have hlen := pushWindow_length m.cfg.window_size.toNat m.history_val v
      have hlen' : (pushWindow m.cfg.window_size.toNat m.history_val v).length =
          m.history_val.length + 1 := by omega
      obtain ⟨ih1, ih2, ih3, ih4⟩ :=
        ih { m with history_loss := pushWindow m.cfg.window_size.toNat m.history_loss l,
                    history_val := pushWindow m.cfg.window_size.toNat m.history_val v }
          (by simp only [hlen']; push_cast; omega)
      refine ⟨?_, ?_, ?_, ?_⟩ <;>
        first
        | (simp [runSteps, step_warmup_eq m e l v hw, ih1, ih2, ih3, ih4, hlen']
           done)
        | (simp [runSteps, step_warmup_eq m e l v hw, ih1, ih2, ih3, ih4, hlen']
           omega)

example :
    (runSteps (initMonitor defaultConfig)
      [(1, 5, 1/10), (2, 4, 2/10)]).1.map (fun s => s.status) =
      [.WARMUP, .WARMUP] := by
  norm_num [runSteps, step, initMonitor, defaultConfig, pushWindow,
    show Int.toNat 5 = 5 from rfl]

-- scratch: warm-path behaviour on a small window
example :
    (runSteps (initMonitor { defaultConfig with window_size := 2 })
      [(1, 1, 5/10), (2, 2, 4/10), (3, 3, 3/10), (4, 4, 2/10), (5, 5, -5/10)]).1.map
        (fun s => (s.status, s.action)) =
      [(.WARMUP, .NONE), (.RISK, .REDUCE_LR), (.RISK, .NONE),
       (.HOLDING, .NONE), (.COLLAPSE, .STOP)] := by
  norm_num [runSteps, step, crqOf, scpOf, pymin, pymax, listMean, listMax,
    loss_jumps, pushWindow, initMonitor, defaultConfig, List.filter,
    List.getLastD, show Int.toNat 2 = 2 from rfl]

-- scratch: healthy run keeps streak at zero, crq 0 on decreasing losses
example :
    (runSteps (initMonitor { defaultConfig with window_size := 2 })
      [(1, 3, 5/10), (2, 2, 6/10), (3, 1, 7/10)]).1.map
        (fun s => (s.status, s.crq, s.scp)) =
      [(.WARMUP, 0, 1), (.HEALTHY, 0, 1), (.HEALTHY, 0, 1)] := by
  norm_num [runSteps, step, crqOf, scpOf, pymin, pymax, listMean, listMax,
    loss_jumps, pushWindow, initMonitor, defaultConfig, List.filter,
    List.getLastD, show Int.toNat 2 = 2 from rfl]

/-! ## Claim theorems -/

/-- C7: calling `reset` clears the rolling history and the risk streak,
leaves every configuration field unchanged, and replaying any sequence of
`(epoch, train_loss, val_acc)` triples after the reset yields exactly the
snapshots of a freshly constructed monitor with the same configuration. -/
theorem c7_reset_replay (m : Monitor) (inputs : List (Int × ℚ × ℚ)) :
    runSteps (reset m) inputs = runSteps (initMonitor m.cfg) inputs ∧
    (reset m).cfg = m.cfg ∧ (reset m).history_loss = [] ∧
    (reset m).history_val = [] ∧ (reset m).risk_streak = 0 :=
  ⟨rfl, rfl, rfl, rfl, rfl⟩

/-- C8: construction fails with the invalid-configuration error exactly
when the supplied `window_size` is below 2; for every other configuration,
nonsensical thresholds included, it succeeds with the fresh monitor state
(and the error type has a single inhabitant, so no other error exists). -/
theorem c8_invalid_configuration (cfg : Config) :
    (mkCompanion cfg = Except.error MonitorError.InvalidConfiguration ↔
      cfg.window_size < 2) ∧
    (2 ≤ cfg.window_size → mkCompanion cfg = Except.ok (initMonitor cfg)) := by
  unfold mkCompanion
  split_ifs with h
  · exact ⟨⟨fun _ => h, fun _ => rfl⟩, fun h2 => absurd h2 (by omega)⟩
  · refine ⟨⟨fun hcontr => by simp at hcontr, fun h2 => absurd h2 h⟩, fun _ => rfl⟩

theorem c8_invalid_configuration_witness :
    mkCompanion { defaultConfig with window_size := 1 } =
      Except.error MonitorError.InvalidConfiguration ∧
    mkCompanion defaultConfig = Except.ok (initMonitor defaultConfig) :=
  ⟨(c8_invalid_configuration { defaultConfig with window_size := 1 }).1.mpr (by decide),
   (c8_invalid_configuration defaultConfig).2 (by decide)⟩

/-- C10: the `epoch` argument of `step` never influences the computation:
two calls from the same state with the same loss and validation inputs but
arbitrary epochs agree on status, crq, scp, action and the successor
state, and the epoch is only echoed into the snapshot. -/
theorem c10_epoch_opaque (m : Monitor) (e1 e2 : Int) (l v : ℚ) :
    (step m e1 l v).1.status = (step m e2 l v).1.status ∧
    (step m e1 l v).1.crq = (step m e2 l v).1.crq ∧
    (step m e1 l v).1.scp = (step m e2 l v).1.scp ∧
    (step m e1 l v).1.action = (step m e2 l v).1.action ∧
    (step m e1 l v).2 = (step m e2 l v).2 ∧
    (step m e1 l v).1.epoch = e1 := by
  simp only [step]
  split_ifs <;> exact ⟨rfl, rfl, rfl, rfl, rfl, rfl⟩

/-- C9: action/status coupling of every snapshot: STOP exactly for
COLLAPSE or CHRONIC_FAILURE, REDUCE_LR exactly for RISK with a risk streak
of 1 after the call, and NONE in every other case (WARMUP, HEALTHY,
HOLDING, or RISK with streak 2). -/
theorem c9_action_coupling (m : Monitor) (e : Int) (l v : ℚ) :
    ((step m e l v).1.action = Action.STOP ↔
      (step m e l v).1.status = Status.COLLAPSE ∨
        (step m e l v).1.status = Status.CHRONIC_FAILURE) ∧
    ((step m e l v).1.action = Action.REDUCE_LR ↔
      ((step m e l v).1.status = Status.RISK ∧ (step m e l v).2.risk_streak = 1)) ∧
    ((step m e l v).1.status = Status.WARMUP ∨ (step m e l v).1.status = Status.HEALTHY ∨
        (step m e l v).1.status = Status.HOLDING ∨
        ((step m e l v).1.status = Status.RISK ∧ (step m e l v).2.risk_streak = 2) →
      (step m e l v).1.action = Action.NONE) := by
  simp only [step]
  split_ifs <;> simp_all

theorem c9_action_coupling_witness :
    (step (initMonitor { defaultConfig with window_size := 2 }) 1 1 1).1.action =
      Action.NONE :=
  (c9_action_coupling (initMonitor { defaultConfig with window_size := 2 }) 1 1 1).2.2
    (Or.inl (by norm_num [step, initMonitor, defaultConfig, pushWindow]))

/-- C1: on a warm call, the snapshot carries the computed CRQ and SCP, the
epoch is classified risky exactly by
`(crq > crq_threshold AND NOT (scp > hold_floor)) OR (scp < scp_threshold)`,
and then: if risky the streak is incremented and status/action follow
`classifySpec` (RISK/REDUCE_LR at streak 1, RISK/NONE at streak 2,
COLLAPSE/STOP at streak >= 3 with scp < scp_stop, else CHRONIC_FAILURE/STOP
at streak >= chronic_risk_epochs, else HOLDING/NONE); if not risky the
streak resets to 0 with status HEALTHY and action NONE. -/
theorem c1_governance (m : Monitor) (e : Int) (l v : ℚ)
    (hwarm : m.cfg.window_size ≤ (m.history_val.length : Int) + 1) :
    (step m e l v).1.crq =
      crqOf m.cfg (pushWindow m.cfg.window_size.toNat m.history_loss l) ∧
    (step m e l v).1.scp =
      scpOf m.cfg (pushWindow m.cfg.window_size.toNat m.history_val v) ∧
    (riskySpec m.cfg (crqOf m.cfg (pushWindow m.cfg.window_size.toNat m.history_loss l))
        (scpOf m.cfg (pushWindow m.cfg.window_size.toNat m.history_val v)) →
      (step m e l v).2.risk_streak = m.risk_streak + 1 ∧
      ((step m e l v).1.status, (step m e l v).1.action) =
        classifySpec m.cfg (scpOf m.cfg (pushWindow m.cfg.window_size.toNat m.history_val v))
          (m.risk_streak + 1)) ∧
    (¬ riskySpec m.cfg (crqOf m.cfg (pushWindow m.cfg.window_size.toNat m.history_loss l))
        (scpOf m.cfg (pushWindow m.cfg.window_size.toNat m.history_val v)) →
      (step m e l v).2.risk_streak = 0 ∧
      (step m e l v).1.status = Status.HEALTHY ∧
      (step m e l v).1.action = Action.NONE) := by
  have hlen := pushWindow_length m.cfg.window_size.toNat m.history_val v
  have hc : ¬ ((pushWindow m.cfg.window_size.toNat m.history_val v).length : Int) <
      m.cfg.window_size := by omega
  simp only [step]
  rw [if_neg hc]
  by_cases hr :
      (m.cfg.crq_threshold <
          crqOf m.cfg (pushWindow m.cfg.window_size.toNat m.history_loss l) ∧
        ¬ m.cfg.hold_floor <
          scpOf m.cfg (pushWindow m.cfg.window_size.toNat m.history_val v)) ∨
      scpOf m.cfg (pushWindow m.cfg.window_size.toNat m.history_val v) <
        m.cfg.scp_threshold
  · rw [if_pos hr]
    refine ⟨rfl, rfl, fun _ => ⟨rfl, ?_⟩, fun hnr => absurd hr hnr⟩
    rw [Prod.mk.eta]
    unfold classifySpec
    split_ifs <;> first | rfl | omega | tauto
  · rw [if_neg hr]
    exact ⟨rfl, rfl, fun hrr => absurd hrr hr, fun _ => ⟨rfl, rfl, rfl⟩⟩

theorem c1_governance_witness :
    (wmon1.cfg.window_size ≤ (wmon1.history_val.length : Int) + 1) ∧
    ((step wmon1 2 2 (1/10)).1.crq =
        crqOf wmon1.cfg (pushWindow wmon1.cfg.window_size.toNat wmon1.history_loss 2) ∧
      (step wmon1 2 2 (1/10)).1.scp =
        scpOf wmon1.cfg (pushWindow wmon1.cfg.window_size.toNat wmon1.history_val (1/10)) ∧
      (riskySpec wmon1.cfg
          (crqOf wmon1.cfg (pushWindow wmon1.cfg.window_size.toNat wmon1.history_loss 2))
          (scpOf wmon1.cfg (pushWindow wmon1.cfg.window_size.toNat wmon1.history_val (1/10))) →
        (step wmon1 2 2 (1/10)).2.risk_streak = wmon1.risk_streak + 1 ∧
        ((step wmon1 2 2 (1/10)).1.status, (step wmon1 2 2 (1/10)).1.action) =
          classifySpec wmon1.cfg
            (scpOf wmon1.cfg (pushWindow wmon1.cfg.window_size.toNat wmon1.history_val (1/10)))
            (wmon1.risk_streak + 1)) ∧
      (¬ riskySpec wmon1.cfg
          (crqOf wmon1.cfg (pushWindow wmon1.cfg.window_size.toNat wmon1.history_loss 2))
          (scpOf wmon1.cfg (pushWindow wmon1.cfg.window_size.toNat wmon1.history_val (1/10))) →
        (step wmon1 2 2 (1/10)).2.risk_streak = 0 ∧
        (step wmon1 2 2 (1/10)).1.status = Status.HEALTHY ∧
        (step wmon1 2 2 (1/10)).1.action = Action.NONE)) :=
  ⟨by decide, c1_governance wmon1 2 2 (1/10) (by decide)⟩

/-- C2: for a freshly constructed monitor with window `w`, the first `w-1`
calls to `step` return WARMUP snapshots with crq 0, scp 1, action NONE and
the echoed epoch, the risk streak stays at its initial 0 throughout the
warmup phase, and the `w`-th call is the first whose snapshot is not
WARMUP (the index computation and governance logic run). -/
theorem c2_warmup_phase (cfg : Config) (inputs : List (Int × ℚ × ℚ))
    (hw : 2 ≤ cfg.window_size) :
    ((runSteps (initMonitor cfg) inputs).1.take (cfg.window_size.toNat - 1) =
      (inputs.take (cfg.window_size.toNat - 1)).map (fun t =>
        { epoch := t.1, status := Status.WARMUP, crq := 0, scp := 1,
          action := Action.NONE })) ∧
    (∀ k : Nat, (k : Int) < cfg.window_size →
      (runSteps (initMonitor cfg) (inputs.take k)).2.risk_streak = 0) ∧
    (cfg.window_size ≤ (inputs.length : Int) →
      ∀ s, (runSteps (initMonitor cfg) inputs).1[cfg.window_size.toNat - 1]? = some s →
        s.status ≠ Status.WARMUP) := by
  refine ⟨?_, ?_, ?_⟩
  · rw [runSteps_take]
    refine (runSteps_warmup (inputs.take (cfg.window_size.toNat - 1))
      (initMonitor cfg) ?_).1
    simp only [initMonitor, List.length_nil, List.length_take]
    push_cast
    omega
  · intro k hk
    have h := (runSteps_warmup (inputs.take k) (initMonitor cfg)
      (by simp only [initMonitor, List.length_nil, List.length_take]; push_cast; omega)).2.2.1
    simpa [initMonitor] using h
  · intro hn s hs
    have hkn : cfg.window_size.toNat - 1 < inputs.length := by omega
    obtain ⟨h1, h2, h3, h4⟩ := runSteps_warmup (inputs.take (cfg.window_size.toNat - 1))
        (initMonitor cfg)
        (by simp only [initMonitor, List.length_nil, List.length_take]; push_cast; omega)
    rw [← List.take_append_drop (cfg.window_size.toNat - 1) inputs, runSteps_append] at hs
    have hlen1 : (runSteps (initMonitor cfg)
        (inputs.take (cfg.window_size.toNat - 1))).1.length = cfg.window_size.toNat - 1 := by
      rw [runSteps_fst_length, List.length_take]
      omega
    rw [List.getElem?_append_right (by omega)] at hs
    obtain ⟨t, rest, hd⟩ := List.exists_cons_of_ne_nil
      (show inputs.drop (cfg.window_size.toNat - 1) ≠ [] by
        refine List.ne_nil_of_length_pos ?_
        rw [List.length_drop]
        omega)
    rw [hd] at hs
    obtain ⟨e, l, v⟩ := t
    rw [hlen1, Nat.sub_self] at hs
    simp only [runSteps, List.getElem?_cons_zero, Option.some.injEq] at hs
    rw [← hs]
    apply step_status_ne_warmup
    rw [h2, h4]
    simp only [initMonitor, List.length_nil, List.length_take]
    push_cast
    omega

theorem c2_warmup_phase_witness :
    (2 ≤ wcfg.window_size) ∧
    (((runSteps (initMonitor wcfg) [(1, 1, 1), (2, 1, 1)]).1.take
        (wcfg.window_size.toNat - 1) =
      (([(1, 1, 1), (2, 1, 1)] : List (Int × ℚ × ℚ)).take
        (wcfg.window_size.toNat - 1)).map (fun t =>
        { epoch := t.1, status := Status.WARMUP, crq := 0, scp := 1,
          action := Action.NONE })) ∧
    (∀ k : Nat, (k : Int) < wcfg.window_size →
      (runSteps (initMonitor wcfg)
        (([(1, 1, 1), (2, 1, 1)] : List (Int × ℚ × ℚ)).take k)).2.risk_streak = 0) ∧
    (wcfg.window_size ≤ (([(1, 1, 1), (2, 1, 1)] : List (Int × ℚ × ℚ)).length : Int) →
      ∀ s, (runSteps (initMonitor wcfg) [(1, 1, 1), (2, 1, 1)]).1[wcfg.window_size.toNat - 1]? =
          some s →
        s.status ≠ Status.WARMUP)) :=
  ⟨by decide, c2_warmup_phase wcfg [(1, 1, 1), (2, 1, 1)] (by decide)⟩

/-- A single step whose snapshot is either WARMUP or has SCP strictly
above the hold floor cannot be classified risky when the hold floor
dominates the SCP threshold: the status is WARMUP or HEALTHY. -/
lemma step_held (m : Monitor) (e : Int) (l v : ℚ)
    (hth : m.cfg.scp_threshold ≤ m.cfg.hold_floor)
    (hscp : (step m e l v).1.status = Status.WARMUP ∨
      m.cfg.hold_floor < (step m e l v).1.scp) :
    (step m e l v).1.status = Status.WARMUP ∨
      (step m e l v).1.status = Status.HEALTHY := by
  by_cases hc : ((pushWindow m.cfg.window_size.toNat m.history_val v).length : Int) <
      m.cfg.window_size
  · left
    simp only [step]
    rw [if_pos hc]
  · right
    have hwarm : m.cfg.window_size ≤ (m.history_val.length : Int) + 1 := by
      have := pushWindow_length m.cfg.window_size.toNat m.history_val v
      omega
    have hne := step_status_ne_warmup m e l v hwarm
    have hfl : m.cfg.hold_floor < (step m e l v).1.scp := hscp.resolve_left hne
    rw [step_scp_warm m e l v hwarm] at hfl
    have hnr : ¬ ((m.cfg.crq_threshold <
          crqOf m.cfg (pushWindow m.cfg.window_size.toNat m.history_loss l) ∧
        ¬ m.cfg.hold_floor <
          scpOf m.cfg (pushWindow m.cfg.window_size.toNat m.history_val v)) ∨
        scpOf m.cfg (pushWindow m.cfg.window_size.toNat m.history_val v) <
          m.cfg.scp_threshold) := by
      rintro (⟨_, hnh⟩ | hlt)
      · exact hnh hfl
      · linarith
    simp only [step]
    rw [if_neg hc, if_neg hnr]

/-- C5: when `hold_floor >= scp_threshold` and the computed SCP stays
strictly above the hold floor at every warm epoch of a run, no call to
`step` in that run ever returns RISK, HOLDING, COLLAPSE or
CHRONIC_FAILURE — every snapshot is WARMUP or HEALTHY, however large CRQ
becomes. -/
theorem c5_held_tolerance (m : Monitor) (inputs : List (Int × ℚ × ℚ))
    (hth : m.cfg.scp_threshold ≤ m.cfg.hold_floor)
    (hheld : ∀ s ∈ (runSteps m inputs).1,
      s.status = Status.WARMUP ∨ m.cfg.hold_floor < s.scp) :
    ∀ s ∈ (runSteps m inputs).1,
      s.status = Status.WARMUP ∨ s.status = Status.HEALTHY := by
  induction inputs generalizing m with
  | nil =>
      intro s hs
      simp [runSteps] at hs
  | cons t rest ih =>
      obtain ⟨e, l, v⟩ := t
      intro s hs
      simp only [runSteps, List.mem_cons] at hs
      simp only [runSteps, List.forall_mem_cons] at hheld
      rcases hs with rfl | hs
      · exact step_held m e l v hth hheld.1
      · refine ih (step m e l v).2 ?_ ?_ s hs
        · rw [step_cfg]
          exact hth
        · intro s' hs'
          rw [step_cfg]
          exact hheld.2 s' hs'

theorem c5_held_tolerance_witness :
    (wcfg.scp_threshold ≤ wcfg.hold_floor) ∧
    (∀ s ∈ (runSteps (initMonitor wcfg) [(1, 1, 1), (2, 2, 1)]).1,
      s.status = Status.WARMUP ∨ wcfg.hold_floor < s.scp) ∧
    (∀ s ∈ (runSteps (initMonitor wcfg) [(1, 1, 1), (2, 2, 1)]).1,
      s.status = Status.WARMUP ∨ s.status = Status.HEALTHY) := by
  have h1 : wcfg.scp_threshold ≤ wcfg.hold_floor := by
    norm_num [wcfg, defaultConfig]
  have h2 : ∀ s ∈ (runSteps (initMonitor wcfg) [(1, 1, 1), (2, 2, 1)]).1,
      s.status = Status.WARMUP ∨ wcfg.hold_floor < s.scp := by
    norm_num [runSteps, step, crqOf, scpOf, pymin, pymax, listMean, listMax,
      loss_jumps, pushWindow, initMonitor, wcfg, defaultConfig, List.filter,
      List.getLastD, show Int.toNat 2 = 2 from rfl]
  exact ⟨h1, h2, c5_held_tolerance (initMonitor wcfg) [(1, 1, 1), (2, 2, 1)] h1 h2⟩

/-! ## Lemmas about the two indices -/

lemma crqOf_nonneg_le_one (cfg : Config) (h : 0 ≤ cfg.crq_scale) (l : List ℚ) :
    0 ≤ crqOf cfg l ∧ crqOf cfg l ≤ 1 := by
  simp only [crqOf]
  split_ifs with he
  · norm_num
  · have hx : 0 ≤ listMean ((loss_jumps l).filter (fun j => 0 < j)) * cfg.crq_scale := by
      apply mul_nonneg _ h
      unfold listMean
      apply div_nonneg
      · apply List.sum_nonneg
        intro x hxm
        simp only [List.mem_filter, decide_eq_true_eq] at hxm
        exact le_of_lt hxm.2
      · positivity
    simp only [pymin]
    split_ifs with h1
    · norm_num
    · exact ⟨hx, by linarith [not_le.mp h1]⟩

lemma pymax_left_le (a b : ℚ) : a ≤ pymax a b := by
  unfold pymax
  split_ifs with h
  · exact le_refl a
  · linarith [not_le.mp h]

lemma pymax_right_le (a b : ℚ) : b ≤ pymax a b := by
  unfold pymax
  split_ifs with h
  · exact h
  · exact le_refl b

lemma le_foldl_pymax (l : List ℚ) : ∀ a : ℚ, a ≤ l.foldl pymax a := by
  induction l with
  | nil => exact fun a => le_refl a
  | cons c t ih =>
      intro a
      exact le_trans (pymax_left_le a c) (ih (pymax a c))

lemma mem_le_foldl_pymax (l : List ℚ) : ∀ a x : ℚ, x ∈ l → x ≤ l.foldl pymax a := by
  induction l with
  | nil =>
      intro a x hx
      simp at hx
  | cons c t ih =>
      intro a x hx
      rcases List.mem_cons.mp hx with rfl | hx
      · exact le_trans (pymax_right_le a x) (le_foldl_pymax t (pymax a x))
      · exact ih (pymax a c) x hx

lemma mem_le_listMax (l : List ℚ) (x : ℚ) (hx : x ∈ l) : x ≤ listMax l := by
  cases l with
  | nil => simp at hx
  | cons c t =>
      rcases List.mem_cons.mp hx with rfl | hx
      · exact le_foldl_pymax t x
      · exact mem_le_foldl_pymax t c x hx

lemma getLastD_mem (l : List ℚ) (hl : l ≠ []) : l.getLastD 0 ∈ l := by
  cases l with
  | nil => exact absurd rfl hl
  | cons c t =>
      rw [List.getLastD_cons]
      exact List.getLastD_mem_cons t c

lemma scpOf_bounds (cfg : Config) (hs : 0 < cfg.scp_sensitivity) (l : List ℚ)
    (hl : l ≠ []) :
    0 ≤ scpOf cfg l ∧ scpOf cfg l ≤ 1 ∧
      (scpOf cfg l = 1 ↔ l.getLastD 0 = listMax l) := by
  have hle : l.getLastD 0 ≤ listMax l := mem_le_listMax l _ (getLastD_mem l hl)
  have hd0 : 0 ≤ listMax l - l.getLastD 0 := by linarith
  have hds : 0 ≤ (listMax l - l.getLastD 0) * cfg.scp_sensitivity :=
    mul_nonneg hd0 (le_of_lt hs)
  simp only [scpOf, pymax]
  split_ifs with h1
  · refine ⟨le_refl 0, by norm_num, ?_⟩
    constructor
    · intro h01
      exact absurd h01 (by norm_num)
    · intro heq
      rw [heq] at h1
      simp at h1
      linarith
  · refine ⟨by linarith [not_le.mp h1], by linarith, ?_⟩
    constructor
    · intro hone
      have hzero : (listMax l - l.getLastD 0) * cfg.scp_sensitivity = 0 := by linarith
      rcases mul_eq_zero.mp hzero with hdz | hsz
      · linarith
      · exact absurd hsz (ne_of_gt hs)
    · intro heq
      rw [heq]
      simp

/-! ## C3, C4 and C6 -/

/-- C3 (amended with a nonnegative scale): for every monitor state whose
configuration carries a nonnegative `crq_scale`, every snapshot of `step`
has its CRQ inside `[0, 1]`. -/
theorem c3_crq_bounded (m : Monitor) (e : Int) (l v : ℚ)
    (hscale : 0 ≤ m.cfg.crq_scale) :
    0 ≤ (step m e l v).1.crq ∧ (step m e l v).1.crq ≤ 1 := by
  by_cases hc : ((pushWindow m.cfg.window_size.toNat m.history_val v).length : Int) <
      m.cfg.window_size
  · simp only [step]
    rw [if_pos hc]
    norm_num
  · have hwarm : m.cfg.window_size ≤ (m.history_val.length : Int) + 1 := by
      have := pushWindow_length m.cfg.window_size.toNat m.history_val v
      omega
    rw [step_crq_warm m e l v hwarm]
    exact crqOf_nonneg_le_one m.cfg hscale _

theorem c3_crq_bounded_witness :
    (0 ≤ wmon1.cfg.crq_scale) ∧
    (0 ≤ (step wmon1 2 2 (1/10)).1.crq ∧ (step wmon1 2 2 (1/10)).1.crq ≤ 1) :=
  ⟨by norm_num [wmon1, wcfg, defaultConfig],
   c3_crq_bounded wmon1 2 2 (1/10) (by norm_num [wmon1, wcfg, defaultConfig])⟩

/-- A configuration with a negative CRQ scale, accepted by construction. -/
def cexCfg3 : Config := { defaultConfig with window_size := 2, crq_scale := -1 }

theorem c3_crq_bounded_cex :
    ¬ (0 ≤ ((runSteps (initMonitor cexCfg3) [(1, 0, 0), (2, 1, 0)]).1.getD 1
        default).crq) := by
  norm_num [runSteps, step, crqOf, scpOf, pymin, pymax, listMean, listMax,
    loss_jumps, pushWindow, initMonitor, cexCfg3, defaultConfig, List.filter,
    List.getLastD, List.getD_cons_succ, List.getD_cons_zero,
    show Int.toNat 2 = 2 from rfl]

/-- C4 (amended with a positive sensitivity): for a constructed monitor
(window at least 2) with `scp_sensitivity > 0`, every warm snapshot has
SCP inside `[0, 1]`, and SCP equals 1 exactly when the most recent
validation value equals the maximum of the current validation window. -/
theorem c4_scp_bounded (m : Monitor) (e : Int) (l v : ℚ)
    (hsens : 0 < m.cfg.scp_sensitivity) (hw2 : 2 ≤ m.cfg.window_size)
    (hwarm : m.cfg.window_size ≤ (m.history_val.length : Int) + 1) :
    0 ≤ (step m e l v).1.scp ∧ (step m e l v).1.scp ≤ 1 ∧
      ((step m e l v).1.scp = 1 ↔
        (pushWindow m.cfg.window_size.toNat m.history_val v).getLastD 0 =
          listMax (pushWindow m.cfg.window_size.toNat m.history_val v)) := by
  rw [step_scp_warm m e l v hwarm]
  apply scpOf_bounds m.cfg hsens
  have := pushWindow_length m.cfg.window_size.toNat m.history_val v
  refine List.ne_nil_of_length_pos ?_
  omega

theorem c4_scp_bounded_witness :
    (0 < wmon1.cfg.scp_sensitivity) ∧ (2 ≤ wmon1.cfg.window_size) ∧
    (wmon1.cfg.window_size ≤ (wmon1.history_val.length : Int) + 1) ∧
    (0 ≤ (step wmon1 2 1 (1/2)).1.scp ∧ (step wmon1 2 1 (1/2)).1.scp ≤ 1 ∧
      ((step wmon1 2 1 (1/2)).1.scp = 1 ↔
        (pushWindow wmon1.cfg.window_size.toNat wmon1.history_val (1/2)).getLastD 0 =
          listMax (pushWindow wmon1.cfg.window_size.toNat wmon1.history_val (1/2)))) :=
  ⟨by norm_num [wmon1, wcfg, defaultConfig], by decide, by decide,
   c4_scp_bounded wmon1 2 1 (1/2) (by norm_num [wmon1, wcfg, defaultConfig])
     (by decide) (by decide)⟩

/-- A configuration with a negative SCP sensitivity, accepted by
construction. -/
def cexCfg4 : Config := { defaultConfig with window_size := 2, scp_sensitivity := -1 }

theorem c4_scp_bounded_cex :
    ¬ (((runSteps (initMonitor cexCfg4) [(1, 0, 1), (2, 0, 0)]).1.getD 1
        default).scp ≤ 1) := by
  norm_num [runSteps, step, crqOf, scpOf, pymin, pymax, listMean, listMax,
    loss_jumps, pushWindow, initMonitor, cexCfg4, defaultConfig, List.filter,
    List.getLastD, List.getD_cons_succ, List.getD_cons_zero,
    show Int.toNat 2 = 2 from rfl]

lemma loss_jumps_nonpos (l : List ℚ) (h : List.Chain' (fun a b => b ≤ a) l) :
    ∀ j ∈ loss_jumps l, j ≤ 0 := by
  induction l with
  | nil =>
      intro j hj
      simp [loss_jumps] at hj
  | cons a t ih =>
      cases t with
      | nil =>
          intro j hj
          simp [loss_jumps] at hj
      | cons b t2 =>
          intro j hj
          rw [List.chain'_cons] at h
          simp only [loss_jumps, List.mem_cons] at hj
          rcases hj with rfl | hj
          · linarith [h.1]
          · exact ih h.2 j hj

lemma crqOf_eq_zero_of_monotone (cfg : Config) (l : List ℚ)
    (h : List.Chain' (fun a b => b ≤ a) l) : crqOf cfg l = 0 := by
  unfold crqOf
  rw [if_pos]
  rw [List.isEmpty_iff, List.filter_eq_nil_iff]
  intro a ha
  have := loss_jumps_nonpos l h a ha
  simp only [decide_eq_true_eq]
  linarith

/-- C6: a warm call whose pushed loss window is monotone non-increasing
reports a CRQ of exactly 0. -/
theorem c6_crq_zero_monotone (m : Monitor) (e : Int) (l v : ℚ)
    (hwarm : m.cfg.window_size ≤ (m.history_val.length : Int) + 1)
    (hmono : List.Chain' (fun a b => b ≤ a)
      (pushWindow m.cfg.window_size.toNat m.history_loss l)) :
    (step m e l v).1.crq = 0 := by
  rw [step_crq_warm m e l v hwarm]
  exact crqOf_eq_zero_of_monotone m.cfg _ hmono

theorem c6_crq_zero_monotone_witness :
    (wmon1.cfg.window_size ≤ (wmon1.history_val.length : Int) + 1) ∧
    (List.Chain' (fun a b => b ≤ a)
      (pushWindow wmon1.cfg.window_size.toNat wmon1.history_loss (1/2))) ∧
    (step wmon1 2 (1/2) (1/2)).1.crq = 0 :=
  ⟨by decide,
   by norm_num [wmon1, wcfg, defaultConfig, pushWindow,
     show Int.toNat 2 = 2 from rfl],
   c6_crq_zero_monotone wmon1 2 (1/2) (1/2) (by decide)
     (by norm_num [wmon1, wcfg, defaultConfig, pushWindow,
       show Int.toNat 2 = 2 from rfl])⟩

end Synkyria
